import Mathlib

/-!
Shallow embedding of `telegram_autoregexbot/autoregex.py` (santarl/telegram-autoregexbot).

The embedding covers the pure core of the bot: the regex rule engine
(`handle_message`, whole-message and URL-only modes), the access gate
(`check_access`), the dedup/staleness/cooldown gates, the duration parser
(`parse_duration`), the startup reminder recovery (`post_init` +
`send_reminder_from_recovery`), and configuration loading
(`ConfigManager.load_config`, `_get_list`, `_get_int_list`, `_parse_rules`).

Conventions:
- Python `float` time values are modelled as `ℚ` (the code only compares and
  subtracts them, so exact rational arithmetic is a faithful abstraction).
- Compiled regexes are modelled abstractly: a `Rule` carries a predicate
  `search : String → Bool` (does the pattern match somewhere?) and a fallible
  substitution `sub : String → Option String` (`none` models the `re.error`
  raised for an invalid replacement template, which the source catches and
  logs, skipping the rule).
- The two concrete regexes hard-coded in the source (`https?://[^\s]+` for URL
  extraction and `(\d+)\s*([smhd])` with IGNORECASE for durations) are
  implemented directly as character-level scanners reproducing `re.findall`
  (leftmost, non-overlapping, greedy; these patterns admit no nontrivial
  backtracking since their character classes are disjoint).
- Character classes are modelled over ASCII (the source relies on Unicode-aware
  `\s`/`isdigit`, but all configuration and URL data of interest is ASCII).
-/

/-! ### Python string helpers -/

/-- Python `\s` / `str.strip` whitespace (ASCII subset). -/
def pyIsSpace (c : Char) : Bool :=
  c = ' ' || c = '\t' || c = '\n' || c = '\x0d' || c = '\x0b' || c = '\x0c'

/-- Python `str.strip()` on a character list. -/
def pyStripList (cs : List Char) : List Char :=
  ((cs.dropWhile pyIsSpace).reverse.dropWhile pyIsSpace).reverse

/-- Python `str.strip()`. -/
def pyStrip (s : String) : String :=
  String.mk (pyStripList s.data)

/-- Python `str.lower()` (ASCII subset). -/
def pyLower (s : String) : String :=
  String.mk (s.data.map Char.toLower)

/-- Python `str.isdigit()` for ASCII decimal strings: non-empty and all digits. -/
def pyIsDigitStr (s : String) : Bool :=
  !s.data.isEmpty && s.data.all Char.isDigit

/-- Value of a string of decimal digits (what `int(x)` returns on a digit string). -/
def digitsToNat (ds : List Char) : Nat :=
  ds.foldl (fun acc c => acc * 10 + (c.toNat - '0'.toNat)) 0

/-- Python `str.isdigit()` on a character list. -/
def pyIsDigitList (cs : List Char) : Bool :=
  !cs.isEmpty && cs.all Char.isDigit

/-- Python `val.split(",")`: split on every comma, keeping empty parts
(`"".split(",") == [""]`). -/
def pySplitOnComma (cs : List Char) : List (List Char) :=
  match cs with
  | [] => [[]]
  | c :: rest =>
    let r := pySplitOnComma rest
    if c = ',' then [] :: r
    else
      match r with
      | [] => [[c]]
      | p :: ps => (c :: p) :: ps

/-! ### Rule engine

`autoregex.py:512-522` (whole-message mode):
```
new_text = text
for pattern, replacement in cfg.rules:
    if pattern.search(new_text):
        try:
            new_text = pattern.sub(replacement, new_text)
            matched = True
        except re.error as e:
            logger.error(...)
response_text = new_text
```
-/

/-- A compiled substitution rule, abstracted: `search` is
`pattern.search(text) is not None`, `sub` is `pattern.sub(replacement, text)`
with `none` modelling the `re.error` raised for an invalid replacement
template (caught and logged by the source, which then skips the rule). -/
structure Rule where
  search : String → Bool
  sub : String → Option String

/-- One iteration of the rule loop: state is (current text, matched flag). -/
def ruleStep (st : String × Bool) (r : Rule) : String × Bool :=
  if r.search st.1 then
    match r.sub st.1 with
    | some t => (t, true)
    | none => st
  else st

/-- Whole-message mode of the engine (`autoregex.py:512-522`): the rule loop
run over the full text, starting from `matched = False`. -/
def applyWholeMessage (rules : List Rule) (text : String) : String × Bool :=
  rules.foldl ruleStep (text, false)

/-! ### URL extraction (`re.findall(r"https?://[^\s]+", text)`, `autoregex.py:526`) -/

/-- Try to match `https?://` at the head of the list, returning the matched
prefix and the remainder (the regex engine tries the greedy `https` variant
first; both variants are mutually exclusive here). -/
def urlPrefix (cs : List Char) : Option (List Char × List Char) :=
  match cs with
  | 'h' :: 't' :: 't' :: 'p' :: rest =>
    match rest with
    | 's' :: ':' :: '/' :: '/' :: rest2 =>
      some (['h', 't', 't', 'p', 's', ':', '/', '/'], rest2)
    | ':' :: '/' :: '/' :: rest2 =>
      some (['h', 't', 't', 'p', ':', '/', '/'], rest2)
    | _ => none
  | _ => none

/-- Match `https?://[^\s]+` at the current position: the scheme prefix followed
by a maximal non-empty run of non-whitespace characters. -/
def urlMatchAt (cs : List Char) : Option (List Char × List Char) :=
  match urlPrefix cs with
  | none => none
  | some (p, rest) =>
    let body := rest.takeWhile (fun c => !pyIsSpace c)
    if body.isEmpty then none
    else some (p ++ body, rest.drop body.length)

/-- `re.findall` scan: leftmost, non-overlapping matches; on failure advance one
character.  `fuel` bounds the recursion (each step consumes at least one
character, so `fuel = length` suffices). -/
def findUrlsAux : Nat → List Char → List (List Char)
  | 0, _ => []
  | _ + 1, [] => []
  | fuel + 1, c :: cs =>
    match urlMatchAt (c :: cs) with
    | some (u, rest) => u :: findUrlsAux fuel rest
    | none => findUrlsAux fuel cs

/-- `re.findall(r"https?://[^\s]+", text)` (`autoregex.py:526`). -/
def findUrls (text : String) : List String :=
  (findUrlsAux text.data.length text.data).map String.mk

/-- URL-only mode of the engine (`autoregex.py:523-545`): each extracted URL is
run through the full rule chain independently; only URLs whose own
`url_matched` flag fired are kept, joined by newlines; the global `matched`
flag fires iff some URL's flag fired (the source sets both flags at the same
program point). -/
def applyUrlOnly (rules : List Rule) (text : String) : String × Bool :=
  let results := (findUrls text).map (fun u => List.foldl ruleStep (u, false) rules)
  let processedUrls := (results.filter (fun p => p.2)).map (fun p => p.1)
  let matched := results.any (fun p => p.2)
  let response := if processedUrls.isEmpty then "" else String.intercalate "\n" processedUrls
  (response, matched)

/-! ### Duration parsing (`parse_duration`, `autoregex.py:677-691`)

`re.findall(r"(\d+)\s*([smhd])", s, re.IGNORECASE)` followed by
`sum(int(amount) * multipliers[unit.lower()])`, returning `0` when there are
no tokens. -/

/-- Is the character one of the duration units `s`, `m`, `h`, `d`
(case-insensitive)? -/
def isDurUnit (c : Char) : Bool :=
  c.toLower = 's' || c.toLower = 'm' || c.toLower = 'h' || c.toLower = 'd'

/-- Match `(\d+)\s*([smhd])` (IGNORECASE) at the current position: a maximal
non-empty digit run, maximal whitespace, then a unit character.  (The three
character classes are disjoint, so the greedy match is the only one.) -/
def durMatchAt (cs : List Char) : Option ((List Char × Char) × List Char) :=
  let digits := cs.takeWhile Char.isDigit
  if digits.isEmpty then none
  else
    let rest1 := cs.drop digits.length
    let rest2 := rest1.dropWhile pyIsSpace
    match rest2 with
    | u :: rest3 => if isDurUnit u then some ((digits, u), rest3) else none
    | [] => none

/-- `re.findall` scan for duration tokens (leftmost, non-overlapping). -/
def findDurAux : Nat → List Char → List (List Char × Char)
  | 0, _ => []
  | _ + 1, [] => []
  | fuel + 1, c :: cs =>
    match durMatchAt (c :: cs) with
    | some (tok, rest) => tok :: findDurAux fuel rest
    | none => findDurAux fuel cs

/-- `multipliers = {"s": 1, "m": 60, "h": 3600, "d": 86400}` looked up at
`unit.lower()` (the unit is always one of the four by construction). -/
def unitMultiplier (c : Char) : Nat :=
  if c.toLower = 's' then 1
  else if c.toLower = 'm' then 60
  else if c.toLower = 'h' then 3600
  else if c.toLower = 'd' then 86400
  else 0

/-- `parse_duration` (`autoregex.py:677-691`): sum of `amount * multiplier`
over all `(\d+)\s*([smhd])` tokens; `0` when there are no tokens. -/
def parse_duration (s : String) : Nat :=
  let toks := findDurAux s.data.length s.data
  if toks.isEmpty then 0
  else toks.foldl (fun acc tok => acc + digitsToNat tok.1 * unitMultiplier tok.2) 0

/-! ### Access control (`check_access`, `autoregex.py:388-417`)

The Python function reads `cfg.*`; we pass the relevant configuration fields
explicitly.  The `not chat or not user` guard is outside the model (both are
always present for the events the claims quantify over). -/

/-- The access-relevant configuration fields of `ConfigManager`. -/
structure AccessCfg where
  allow_chat_types : List String
  deny_chat_types : List String
  access_policy : String
  whitelist_chats : List Int
  blacklist_chats : List Int
  whitelist_users : List Int
  blacklist_users : List Int
deriving DecidableEq

/-- Stage 1 of `check_access` (`autoregex.py:396-404`): the `allow_chat_types`
check with the supergroup carve-out (`pass` when the chat is a supergroup,
`"group"` is allowed and `"supergroup"` is not listed). -/
def allowStage (cfg : AccessCfg) (chatType : String) : Bool :=
  if cfg.allow_chat_types ≠ [] ∧ chatType ∉ cfg.allow_chat_types then
    if chatType = "supergroup" ∧ "group" ∈ cfg.allow_chat_types ∧
        "supergroup" ∉ cfg.allow_chat_types then
      true
    else if chatType ∉ cfg.allow_chat_types then
      false
    else
      true
  else true

/-- Stage 2 of `check_access` (`autoregex.py:406-407`): the `deny_chat_types`
check. -/
def denyStage (cfg : AccessCfg) (chatType : String) : Bool :=
  if cfg.deny_chat_types ≠ [] ∧ chatType ∈ cfg.deny_chat_types then false else true

/-- Stage 3 of `check_access` (`autoregex.py:409-415`): the
whitelist/blacklist policy. -/
def policyStage (cfg : AccessCfg) (chatId userId : Int) : Bool :=
  if cfg.access_policy = "whitelist" then
    if chatId ∉ cfg.whitelist_chats ∧ userId ∉ cfg.whitelist_users then false else true
  else if cfg.access_policy = "blacklist" then
    if chatId ∈ cfg.blacklist_chats ∨ userId ∈ cfg.blacklist_users then false else true
  else true

/-- `check_access` (`autoregex.py:388-417`): the sequence of early-return
checks is the conjunction of the three stages. -/
def check_access (cfg : AccessCfg) (chatType : String) (chatId userId : Int) : Bool :=
  allowStage cfg chatType && denyStage cfg chatType && policyStage cfg chatId userId

/-! ### Message pipeline (`handle_message`, `autoregex.py:484-551`)

We model the plain-text path: a text message while no interactive state
(`awaiting_config` / `awaiting_rule`) is pending.  The in-memory mutable state
(`processed_messages`, `user_cooldowns`) is passed explicitly; the produced
response (if any) is returned instead of being sent. -/

/-- The fields of an inbound message the pipeline reads. -/
structure Msg where
  messageId : Nat
  fromId : Int
  chatId : Int
  chatType : String
  date : ℚ
  text : String

/-- The module-level mutable state `processed_messages` / `user_cooldowns`. -/
structure PipeState where
  processedMessages : List Nat
  userCooldowns : List (Int × ℚ)
deriving DecidableEq

/-- `user_cooldowns.get(user.id, 0)`. -/
def cooldownGet (l : List (Int × ℚ)) (u : Int) : ℚ :=
  match l.find? (fun p => p.1 == u) with
  | some p => p.2
  | none => 0

/-- `user_cooldowns[user.id] = now` (dict overwrite). -/
def cooldownSet (l : List (Int × ℚ)) (u : Int) (t : ℚ) : List (Int × ℚ) :=
  (u, t) :: l.filter (fun p => p.1 != u)

/-- The configuration fields `handle_message` reads. -/
structure BotCfg where
  access : AccessCfg
  cooldown_seconds : ℚ
  process_whole_message : Bool
  rules : List Rule

/-- The REGEX LOGIC dispatch of `handle_message` (`autoregex.py:507-545`):
whole-message mode when `process_whole_message` is set, URL-only mode
otherwise.  Returns `(response_text, matched)`. -/
def engineResult (cfg : BotCfg) (text : String) : String × Bool :=
  if cfg.process_whole_message then applyWholeMessage cfg.rules text
  else applyUrlOnly cfg.rules text

/-- `handle_message` (`autoregex.py:484-551`), plain-text path: the gate
sequence (self, dedup, 60-second staleness, access, cooldown), the rule
engine in the configured mode, the no-effective-match gate
(`if not matched or response_text == text or not response_text: return`),
and on success the state writes (`processed_messages.add`,
`user_cooldowns[user.id] = now_ts`) together with the response text. -/
def handle_message (cfg : BotCfg) (botId : Int) (st : PipeState) (now : ℚ)
    (m : Msg) : PipeState × Option String :=
  if m.fromId = botId then (st, none)
  else if m.messageId ∈ st.processedMessages then (st, none)
  else if now - m.date > 60 then (st, none)
  else if check_access cfg.access m.chatType m.chatId m.fromId = false then (st, none)
  else if now - cooldownGet st.userCooldowns m.fromId < cfg.cooldown_seconds then (st, none)
  else
    if (engineResult cfg m.text).2 = false ∨ (engineResult cfg m.text).1 = m.text ∨
        (engineResult cfg m.text).1 = "" then (st, none)
    else
      ({ processedMessages := m.messageId :: st.processedMessages,
         userCooldowns := cooldownSet st.userCooldowns m.fromId now },
       some (engineResult cfg m.text).1)

/-! ### Reminder recovery (`post_init`, `autoregex.py:1217-1249`;
`send_reminder_from_recovery`, `autoregex.py:1266-1284`)

`post_init` iterates the persisted reminders; an overdue one
(`seconds <= 0`) is sent immediately and, only if the send succeeded, deleted
from the store (the `except` branch leaves it in place); a future one is
re-armed via `schedule_reminder(..., int(seconds), ...)`.  The outcome of a
send is modelled by an oracle `sendOk`. -/

/-- A row of the `reminders` table. -/
structure Reminder where
  id : Nat
  chat_id : Int
  user_id : Int
  message_id : Nat
  remind_time : ℚ
  reason : Option String
  link : Option String
deriving DecidableEq

/-- The observable outcome of recovery: the store contents after the recovery
deliveries, the list of missed reminders actually delivered, and the future
reminders re-armed with their timer delay (`int(seconds)`). -/
structure RecoveryResult where
  store : List Reminder
  delivered : List Reminder
  rearmed : List (Reminder × Int)
deriving DecidableEq

/-- One iteration of the `post_init` recovery loop over a pending row. -/
def recoverStep (now : ℚ) (sendOk : Reminder → Bool) (acc : RecoveryResult)
    (r : Reminder) : RecoveryResult :=
  let seconds := r.remind_time - now
  if seconds ≤ 0 then
    if sendOk r then
      { acc with
        store := acc.store.filter (fun x => x.id ≠ r.id),
        delivered := acc.delivered ++ [r] }
    else
      acc
  else
    { acc with rearmed := acc.rearmed ++ [(r, ⌊seconds⌋)] }

/-- The recovery pass of `post_init` (`autoregex.py:1217-1249`) together with
the effect of `send_reminder_from_recovery` on the store. -/
def recoverReminders (now : ℚ) (sendOk : Reminder → Bool)
    (pending : List Reminder) : RecoveryResult :=
  pending.foldl (recoverStep now sendOk) ⟨pending, [], []⟩

/-! ### Configuration loading (`ConfigManager`, `autoregex.py:143-376`)

The merged `configparser` contents (example defaults overridden by the local
file) are modelled as an association list of sections.  The fallible getters
(`getboolean`, `getfloat`) return `none` for the `ValueError` they raise on a
malformed value; `load_config` runs inside one `try`, so the first failing
getter aborts the remaining assignments while the earlier ones have already
mutated the manager — this partial-update semantics is modelled by returning
the state reached at the failure point. -/

/-- The merged key/value contents of the layered configuration files. -/
def RawConfig := List (String × List (String × String))

/-- `config.get(section, key)` without fallback: `none` when section or key is
missing. -/
def rawGet (raw : RawConfig) (sec key : String) : Option String :=
  match raw.find? (fun s => s.1 == sec) with
  | none => none
  | some s => (s.2.find? (fun p => p.1 == key)).map (fun p => p.2)

/-- `configparser.ConfigParser.BOOLEAN_STATES`: what `getboolean` accepts. -/
def parseConfigBool (s : String) : Option Bool :=
  let l := pyLower s
  if l = "1" ∨ l = "yes" ∨ l = "true" ∨ l = "on" then some true
  else if l = "0" ∨ l = "no" ∨ l = "false" ∨ l = "off" then some false
  else none

/-- `config.getboolean(section, key, fallback=fb)`: the fallback when absent,
`none` (= `ValueError`) on a malformed value. -/
def getbooleanOr (raw : RawConfig) (sec key : String) (fb : Bool) : Option Bool :=
  match rawGet raw sec key with
  | none => some fb
  | some v => parseConfigBool v

/-- Decimal `float()` parser (the subset of Python float syntax that appears in
configuration files): optional sign, then digits with an optional single
point, at least one digit overall; surrounding whitespace stripped. -/
def parseRatCore (cs : List Char) : Option ℚ :=
  let (sign, cs1) : (ℚ × List Char) :=
    match cs with
    | '-' :: rest => (-1, rest)
    | '+' :: rest => (1, rest)
    | _ => (1, cs)
  let intPart := cs1.takeWhile Char.isDigit
  let cs2 := cs1.drop intPart.length
  match cs2 with
  | [] => if intPart.isEmpty then none else some (sign * (digitsToNat intPart : ℚ))
  | '.' :: cs3 =>
    let fracPart := cs3.takeWhile Char.isDigit
    if cs3.drop fracPart.length ≠ [] then none
    else if intPart.isEmpty ∧ fracPart.isEmpty then none
    else some (sign * ((digitsToNat intPart : ℚ) +
      (digitsToNat fracPart : ℚ) / ((10 : ℚ) ^ fracPart.length)))
  | _ => none

/-- `float(s)` on a configuration value (decimal subset). -/
def parseRat (s : String) : Option ℚ :=
  parseRatCore (pyStripList s.data)

/-- `config.getfloat(section, key, fallback=fb)`. -/
def getfloatOr (raw : RawConfig) (sec key : String) (fb : ℚ) : Option ℚ :=
  match rawGet raw sec key with
  | none => some fb
  | some v => parseRat v

/-- `config.get(section, key, fallback=fb)` (never raises). -/
def getStrOr (raw : RawConfig) (sec key fb : String) : String :=
  (rawGet raw sec key).getD fb

/-- `ConfigManager._get_list` (`autoregex.py:331-333`): split the value on
commas, strip and lowercase each token; `[]` when the value is empty or
absent. -/
def get_list (raw : RawConfig) (sec key : String) : List String :=
  let val := getStrOr raw sec key ""
  if val = "" then []
  else (pySplitOnComma val.data).map (fun x => pyLower (String.mk (pyStripList x)))

/-- The body of `ConfigManager._get_int_list` (`autoregex.py:335-337`) on a
raw value: `[int(x.strip()) for x in val.split(",") if x.strip().isdigit()]`.
Only all-digit tokens survive; a token with a leading minus sign fails
`isdigit` and is dropped. -/
def parse_int_list (val : String) : List Int :=
  ((pySplitOnComma val.data).filter (fun x => pyIsDigitList (pyStripList x))).map
    (fun x => (digitsToNat (pyStripList x) : Int))

/-- `ConfigManager._get_int_list` (`autoregex.py:335-337`). -/
def get_int_list (raw : RawConfig) (sec key : String) : List Int :=
  parse_int_list (getStrOr raw sec key "")

/-- Python `str.split(delim, 3)`-style bounded split on a single delimiter
character: at most `n` splits are performed, the remainder stays in the last
part. -/
def splitMax (delim : Char) : List Char → Nat → List (List Char)
  | cs, 0 => [cs]
  | [], _ + 1 => [[]]
  | c :: cs, n + 1 =>
    if c = delim then [] :: splitMax delim cs n
    else
      match splitMax delim cs (n + 1) with
      | [] => [[c]]
      | p :: ps => (c :: p) :: ps

/-- `ConfigManager._parse_rules` (`autoregex.py:339-376`) on the items of the
`substitutions` section: entries not starting with `s` or listed in
`disabled_rules` are skipped; the delimiter is `val[1]` (an entry of length 1
raises inside the per-rule `try` and is skipped); `val.split(delimiter, 3)`
must give at least 3 parts; the rule is kept as its
(pattern, replacement, flags) triple (`re.compile` abstracted away; a compile
failure would likewise only skip that rule). -/
def parse_rules (subs : List (String × String)) (disabled : List String) :
    List (String × String × String) :=
  subs.filterMap (fun kv =>
    if !kv.2.startsWith "s" then none
    else if kv.1 ∈ disabled then none
    else
      match kv.2.data with
      | _ :: delim :: _ =>
        let parts := splitMax delim kv.2.data 3
        if parts.length < 3 then none
        else some (String.mk (parts.getD 1 []), String.mk (parts.getD 2 []),
          String.mk (parts.getD 3 []))
      | _ => none)

/-- The in-memory configuration fields assigned by `load_config`
(`autoregex.py:192-230`), in assignment order. -/
structure LoadedConfig where
  send_as_reply : Bool
  mention_user : Bool
  enable_delete_button : Bool
  delete_allowed : String
  cooldown_seconds : ℚ
  remind_include_link : Bool
  process_whole_message : Bool
  disabled_rules : List String
  access_policy : String
  allow_chat_types : List String
  deny_chat_types : List String
  whitelist_chats : List Int
  blacklist_chats : List Int
  whitelist_users : List Int
  blacklist_users : List Int
  rules : List (String × String × String)
deriving DecidableEq

/-- `ConfigManager.load_config` (`autoregex.py:174-233`): the assignments run
in source order inside a single `try`; the first getter that raises
(`getboolean`/`getfloat` on a malformed value) aborts the rest, and the
`except` handler only logs — so the fields assigned before the failure keep
their new values and the ones after it keep their previous values. -/
def load_config (old : LoadedConfig) (raw : RawConfig)
    (subs : List (String × String)) : LoadedConfig :=
  match getbooleanOr raw "bot" "send_as_reply" true with
  | none => old
  | some sar =>
    let st1 := { old with send_as_reply := sar }
    match getbooleanOr raw "bot" "mention_user" true with
    | none => st1
    | some mu =>
      let st2 := { st1 with mention_user := mu }
      match getbooleanOr raw "bot" "enable_delete_button" true with
      | none => st2
      | some edb =>
        let st3 := { st2 with
          enable_delete_button := edb,
          delete_allowed := getStrOr raw "bot" "delete_allowed" "sender_or_admin" }
        match getfloatOr raw "bot" "cooldown_seconds" 2 with
        | none => st3
        | some cds =>
          let st4 := { st3 with cooldown_seconds := cds }
          match getbooleanOr raw "bot" "remind_include_link" true with
          | none => st4
          | some ril =>
            let st5 := { st4 with remind_include_link := ril }
            match getbooleanOr raw "bot" "process_whole_message" false with
            | none => st5
            | some pwm =>
              let disabled := get_list raw "bot" "disabled_rules"
              { st5 with
                process_whole_message := pwm,
                disabled_rules := disabled,
                access_policy := pyLower (getStrOr raw "access" "access_policy" "off"),
                allow_chat_types := get_list raw "access" "allow_chat_types",
                deny_chat_types := get_list raw "access" "deny_chat_types",
                whitelist_chats := get_int_list raw "access" "whitelist_chats",
                blacklist_chats := get_int_list raw "access" "blacklist_chats",
                whitelist_users := get_int_list raw "access" "whitelist_users",
                blacklist_users := get_int_list raw "access" "blacklist_users",
                rules := parse_rules subs disabled }

/-! ### Helper lemmas -/

/-- Folding an addition over a list starting from `a` is `a` plus the sum. -/
theorem foldl_add_eq_sum {α : Type} (f : α → Nat) (l : List α) (a : Nat) :
    l.foldl (fun acc t => acc + f t) a = a + (l.map f).sum := by
  induction l generalizing a with
  | nil => simp
  | cons x xs ih => simp [ih, Nat.add_assoc]

/-- `any` over a mapped list tests the composite predicate. -/
theorem any_map_comp {α β : Type} (f : α → β) (p : β → Bool) (l : List α) :
    (l.map f).any p = l.any (p ∘ f) := by
  induction l with
  | nil => rfl
  | cons x xs ih => simp [ih]

/-! ### Claim theorems -/

/-- Claim C3: `parse_duration` sums repeated `<integer><unit>` tokens
(units `s`, `m`, `h`, `d`, case-insensitive, unmatched text ignored) and
returns 0 when there are zero tokens; in particular
`parse_duration "2h" = 7200`, `parse_duration "1d 30m" = 88200`,
`parse_duration "" = 0`, `parse_duration "5x" = 0` (and the uppercase
variants behave identically). -/
theorem C3_parse_duration (s : String) :
    parse_duration s =
      ((findDurAux s.data.length s.data).map
        (fun tok => digitsToNat tok.1 * unitMultiplier tok.2)).sum ∧
    (findDurAux s.data.length s.data = [] → parse_duration s = 0) ∧
    parse_duration "2h" = 7200 ∧ parse_duration "1d 30m" = 88200 ∧
    parse_duration "" = 0 ∧ parse_duration "5x" = 0 ∧
    parse_duration "2H" = 7200 ∧ parse_duration "1D 30M" = 88200 := by
  have key : ∀ (l : List (List Char × Char)),
      (if l.isEmpty then 0
       else l.foldl (fun acc tok => acc + digitsToNat tok.1 * unitMultiplier tok.2) 0) =
      (l.map (fun tok => digitsToNat tok.1 * unitMultiplier tok.2)).sum := by
    intro l
    cases l with
    | nil => rfl
    | cons x xs =>
      have h := foldl_add_eq_sum
        (fun tok : List Char × Char => digitsToNat tok.1 * unitMultiplier tok.2) (x :: xs) 0
      simpa using h
  have h1 : parse_duration s =
      ((findDurAux s.data.length s.data).map
        (fun tok => digitsToNat tok.1 * unitMultiplier tok.2)).sum :=
    key (findDurAux s.data.length s.data)
  refine ⟨h1, ?_, by decide, by decide, by decide, by decide, by decide, by decide⟩
  intro h
  rw [h1, h]
  rfl

/-- Claim C4: once the chat-type stage admits the event, whitelist policy
admits iff the chat is whitelisted OR the user is whitelisted, and blacklist
policy denies iff the chat is blacklisted OR the user is blacklisted
(`autoregex.py:409-417`). -/
theorem C4_policy_or_semantics (cfg : AccessCfg) (ct : String) (c u : Int)
    (hAllow : allowStage cfg ct = true) (hDeny : denyStage cfg ct = true) :
    (cfg.access_policy = "whitelist" →
      (check_access cfg ct c u = true ↔
        (c ∈ cfg.whitelist_chats ∨ u ∈ cfg.whitelist_users))) ∧
    (cfg.access_policy = "blacklist" →
      (check_access cfg ct c u = false ↔
        (c ∈ cfg.blacklist_chats ∨ u ∈ cfg.blacklist_users))) := by
  constructor
  · intro hp
    simp only [check_access, hAllow, hDeny, Bool.true_and, policyStage, hp, if_pos]
    by_cases hc : c ∈ cfg.whitelist_chats <;> by_cases hu : u ∈ cfg.whitelist_users <;>
      simp [hc, hu]
  · intro hp
    have hne : cfg.access_policy ≠ "whitelist" := by rw [hp]; decide
    simp only [check_access, hAllow, hDeny, Bool.true_and, policyStage, hp, hne,
      if_neg, if_pos, reduceIte]
    by_cases hc : c ∈ cfg.blacklist_chats <;> by_cases hu : u ∈ cfg.blacklist_users <;>
      simp [hc, hu]

/-- Witness for C4: with whitelist policy, empty chat-type lists, chat `5` not
in `whitelist_chats = [1]` but user `7` in `whitelist_users = [7]`, access is
admitted. -/
theorem C4_policy_or_semantics_witness :
    check_access ⟨[], [], "whitelist", [1], [], [7], []⟩ "private" 5 7 = true :=
  ((C4_policy_or_semantics ⟨[], [], "whitelist", [1], [], [7], []⟩ "private" 5 7
    (by decide) (by decide)).1 rfl).mpr (Or.inr (by simp))

/-- Claim C5: the chat-type stage (`autoregex.py:395-407`) denies when
`allow_chat_types` is non-empty and the chat type is absent (unless the
supergroup carve-out applies); a supergroup passes the stage when `"group"`
is allowed, `"supergroup"` is not listed in `allow_chat_types`, and
`"supergroup"` is not denied; and any chat type in `deny_chat_types` is
denied. -/
theorem C5_chat_type_stage (cfg : AccessCfg) (ct : String) (c u : Int) :
    (cfg.allow_chat_types ≠ [] → ct ∉ cfg.allow_chat_types →
      ¬(ct = "supergroup" ∧ "group" ∈ cfg.allow_chat_types ∧
          "supergroup" ∉ cfg.allow_chat_types) →
      check_access cfg ct c u = false) ∧
    ("group" ∈ cfg.allow_chat_types → "supergroup" ∉ cfg.allow_chat_types →
      "supergroup" ∉ cfg.deny_chat_types →
      allowStage cfg "supergroup" = true ∧ denyStage cfg "supergroup" = true) ∧
    (ct ∈ cfg.deny_chat_types → check_access cfg ct c u = false) := by
  refine ⟨?_, ?_, ?_⟩
  · intro h1 h2 h3
    have hstage : allowStage cfg ct = false := by
      unfold allowStage
      rw [if_pos ⟨h1, h2⟩, if_neg h3, if_pos h2]
    simp [check_access, hstage]
  · intro hg hs hd
    constructor
    · unfold allowStage
      by_cases h1 : cfg.allow_chat_types ≠ [] ∧ "supergroup" ∉ cfg.allow_chat_types
      · rw [if_pos h1, if_pos ⟨rfl, hg, hs⟩]
      · rw [if_neg h1]
    · unfold denyStage
      rw [if_neg (by intro h; exact hd h.2)]
  · intro h
    have hstage : denyStage cfg ct = false := by
      unfold denyStage
      rw [if_pos ⟨List.ne_nil_of_mem h, h⟩]
    simp [check_access, hstage]

/-- Witness for C5: with `allow_chat_types = ["group"]`, a channel is denied,
a supergroup passes the chat-type stage, and with
`deny_chat_types = ["channel"]` a channel is denied. -/
theorem C5_chat_type_stage_witness :
    check_access ⟨["group"], [], "off", [], [], [], []⟩ "channel" 0 0 = false ∧
    (allowStage ⟨["group"], [], "off", [], [], [], []⟩ "supergroup" = true ∧
      denyStage ⟨["group"], [], "off", [], [], [], []⟩ "supergroup" = true) ∧
    check_access ⟨[], ["channel"], "off", [], [], [], []⟩ "channel" 0 0 = false :=
  ⟨(C5_chat_type_stage ⟨["group"], [], "off", [], [], [], []⟩ "channel" 0 0).1
      (by decide) (by decide) (by decide),
   (C5_chat_type_stage ⟨["group"], [], "off", [], [], [], []⟩ "supergroup" 0 0).2.1
      (by decide) (by decide) (by decide),
   (C5_chat_type_stage ⟨[], ["channel"], "off", [], [], [], []⟩ "channel" 0 0).2.2
      (by decide)⟩

/-- Claim C6: a message whose age `now - m.date` exceeds the fixed 60-second
staleness window is never processed (`autoregex.py:492-496`): no rule is
applied, no response is produced, and the state is unchanged — regardless of
rules, access configuration, and cooldown state. -/
theorem C6_stale_never_processed (cfg : BotCfg) (botId : Int) (st : PipeState)
    (now : ℚ) (m : Msg) (h : now - m.date > 60) :
    handle_message cfg botId st now m = (st, none) := by
  simp [handle_message, h]

/-- Witness for C6: a concrete 61-second-old message that would match a rule
and pass every other gate is dropped with no state change. -/
theorem C6_stale_never_processed_witness :
    handle_message
      ⟨⟨[], [], "off", [], [], [], []⟩, 2, true,
        [⟨fun _ => true, fun s => some (s ++ "!")⟩]⟩
      99 ⟨[], []⟩ 61 ⟨10, 5, 1, "private", 0, "hi"⟩ = (⟨[], []⟩, none) :=
  C6_stale_never_processed _ 99 ⟨[], []⟩ 61 ⟨10, 5, 1, "private", 0, "hi"⟩
    (by norm_num)

/-- Claim C7: `processed_messages` and the user's cooldown stamp are written
only when a rule actually matched, the output differs from the input, and the
output is non-empty (`autoregex.py:547-551`); in every other case no response
is produced and the state is unchanged. -/
theorem C7_state_written_only_on_effective_match (cfg : BotCfg) (botId : Int)
    (st : PipeState) (now : ℚ) (m : Msg) :
    ((engineResult cfg m.text).2 = false ∨ (engineResult cfg m.text).1 = m.text ∨
        (engineResult cfg m.text).1 = "" →
      handle_message cfg botId st now m = (st, none)) ∧
    (∀ st', handle_message cfg botId st now m = (st', none) → st' = st) ∧
    (∀ st' r, handle_message cfg botId st now m = (st', some r) →
      (engineResult cfg m.text).2 = true ∧ (engineResult cfg m.text).1 ≠ m.text ∧
      (engineResult cfg m.text).1 ≠ "" ∧ r = (engineResult cfg m.text).1 ∧
      st' = ⟨m.messageId :: st.processedMessages,
             cooldownSet st.userCooldowns m.fromId now⟩) := by
  refine ⟨?_, ?_, ?_⟩
  · intro h
    rcases h with h | h | h <;> simp [handle_message, h]
  · intro st' hr
    unfold handle_message at hr
    split at hr
    · exact congrArg Prod.fst hr.symm
    split at hr
    · exact congrArg Prod.fst hr.symm
    split at hr
    · exact congrArg Prod.fst hr.symm
    split at hr
    · exact congrArg Prod.fst hr.symm
    split at hr
    · exact congrArg Prod.fst hr.symm
    split at hr
    · exact congrArg Prod.fst hr.symm
    · simp at hr
  · intro st' r hr
    unfold handle_message at hr
    split at hr
    · simp at hr
    split at hr
    · simp at hr
    split at hr
    · simp at hr
    split at hr
    · simp at hr
    split at hr
    · simp at hr
    split at hr
    · simp at hr
    · rename_i hcond
      rcases not_or.mp hcond with ⟨ha, hbc⟩
      rcases not_or.mp hbc with ⟨hb, hc⟩
      simp only [Bool.not_eq_false] at ha
      have h1 : st' = ⟨m.messageId :: st.processedMessages,
          cooldownSet st.userCooldowns m.fromId now⟩ :=
        (congrArg Prod.fst hr).symm
      have h2 : r = (engineResult cfg m.text).1 :=
        (Option.some.inj (congrArg Prod.snd hr)).symm
      exact ⟨ha, hb, hc, h2, h1⟩

/-- Witness for C7: with an empty rule set the engine reports no match, so a
message passing all gates still produces no response and leaves the state
unchanged. -/
theorem C7_state_written_only_on_effective_match_witness :
    handle_message ⟨⟨[], [], "off", [], [], [], []⟩, 2, true, []⟩ 99 ⟨[], []⟩ 5
      ⟨10, 5, 1, "private", 0, "hi"⟩ = (⟨[], []⟩, none) :=
  (C7_state_written_only_on_effective_match
      ⟨⟨[], [], "off", [], [], [], []⟩, 2, true, []⟩ 99 ⟨[], []⟩ 5
      ⟨10, 5, 1, "private", 0, "hi"⟩).1 (Or.inl (by decide))

/-- Claim C2: in URL-only mode (`autoregex.py:523-548`) every extracted URL is
run through the full ordered rule chain independently; exactly the URLs whose
chain matched are kept (in their rewritten form), joined by newlines; the
overall `matched` flag fires iff some URL matched; and when no URL matches
the result is `("", false)` — no response — for every input text, including
texts on whose non-URL portions rules would match (the URL-only branch never
applies rules to anything but the extracted URLs). -/
theorem C2_url_only_mode (rules : List Rule) (text : String) :
    (applyUrlOnly rules text).1 =
      String.intercalate "\n"
        (((findUrls text).filter
            (fun u => (List.foldl ruleStep (u, false) rules).2)).map
          (fun u => (List.foldl ruleStep (u, false) rules).1)) ∧
    ((applyUrlOnly rules text).2 = true ↔
      ∃ u ∈ findUrls text, (List.foldl ruleStep (u, false) rules).2 = true) ∧
    ((∀ u ∈ findUrls text, (List.foldl ruleStep (u, false) rules).2 = false) →
      applyUrlOnly rules text = ("", false)) := by
  have hmain : applyUrlOnly rules text =
      (if (((findUrls text).filter
            (fun u => (List.foldl ruleStep (u, false) rules).2)).map
          (fun u => (List.foldl ruleStep (u, false) rules).1)).isEmpty then ""
       else String.intercalate "\n"
        (((findUrls text).filter
            (fun u => (List.foldl ruleStep (u, false) rules).2)).map
          (fun u => (List.foldl ruleStep (u, false) rules).1)),
       (findUrls text).any (fun u => (List.foldl ruleStep (u, false) rules).2)) := by
    simp only [applyUrlOnly]
    rw [List.filter_map, List.map_map, any_map_comp]
    rfl
  refine ⟨?_, ?_, ?_⟩
  · rw [hmain]
    by_cases hE : (((findUrls text).filter
        (fun u => (List.foldl ruleStep (u, false) rules).2)).map
        (fun u => (List.foldl ruleStep (u, false) rules).1)).isEmpty
    · rw [if_pos hE, List.isEmpty_iff.mp hE]
      rfl
    · rw [if_neg hE]
  · rw [hmain]
    simp [List.any_eq_true]
  · intro h
    rw [hmain]
    have hfil : (findUrls text).filter
        (fun u => (List.foldl ruleStep (u, false) rules).2) = [] := by
      simp only [List.filter_eq_nil_iff]
      intro u hu
      simp [h u hu]
    have hany : (findUrls text).any
        (fun u => (List.foldl ruleStep (u, false) rules).2) = false := by
      simp only [List.any_eq_false]
      intro u hu
      simp [h u hu]
    rw [hfil, hany]
    rfl

/-- Witness for C2: a rule matching only the full sentence (never its URLs)
leaves URL-only mode with no match and no response, even though the rule
fires on the raw text. -/
theorem C2_url_only_mode_witness :
    applyUrlOnly [⟨fun s => s = "hi https://a.b ok", fun s => some (s ++ "!")⟩]
      "hi https://a.b ok" = ("", false) ∧
    Rule.search ⟨fun s => s = "hi https://a.b ok", fun s => some (s ++ "!")⟩
      "hi https://a.b ok" = true :=
  ⟨(C2_url_only_mode [⟨fun s => s = "hi https://a.b ok", fun s => some (s ++ "!")⟩]
      "hi https://a.b ok").2.2 (by decide), by decide⟩

/-- Once the matched flag is set, the rest of the rule loop preserves it. -/
theorem foldl_ruleStep_snd_true (rules : List Rule) (st : String × Bool)
    (h : st.2 = true) : (rules.foldl ruleStep st).2 = true := by
  induction rules generalizing st with
  | nil => exact h
  | cons r rs ih =>
    refine ih (ruleStep st r) ?_
    unfold ruleStep
    by_cases hs : r.search st.1 = true
    · rw [if_pos hs]
      cases hsub : r.sub st.1 with
      | some t => rfl
      | none => exact h
    · rw [if_neg hs]
      exact h

/-- The matched flag of the whole-message loop fires iff some rule's pattern
matches the intermediate text reached before that rule AND its substitution
succeeds there. -/
theorem foldl_ruleStep_matched_iff (rules : List Rule) (text : String) :
    (rules.foldl ruleStep (text, false)).2 = true ↔
    ∃ i : Fin rules.length,
      (rules.get i).search ((rules.take i.1).foldl ruleStep (text, false)).1 = true ∧
      ((rules.get i).sub ((rules.take i.1).foldl ruleStep (text, false)).1).isSome = true := by
  induction rules generalizing text with
  | nil => simp
  | cons r rs ih =>
    simp only [List.get_eq_getElem, List.length_cons, List.foldl_cons]
    rw [Fin.exists_fin_succ]
    simp only [Fin.val_zero, Fin.val_succ, List.getElem_cons_zero,
      List.getElem_cons_succ, List.take_zero, List.take_succ_cons,
      List.foldl_cons, List.foldl_nil]
    by_cases hs : r.search text = true
    · cases hsub : r.sub text with
      | some t1 =>
        have hstep : ruleStep (text, false) r = (t1, true) := by
          unfold ruleStep
          rw [if_pos hs, hsub]
        rw [hstep]
        constructor
        · intro _
          exact Or.inl ⟨hs, by simp [hsub]⟩
        · intro _
          exact foldl_ruleStep_snd_true rs (t1, true) rfl
      | none =>
        have hstep : ruleStep (text, false) r = (text, false) := by
          unfold ruleStep
          rw [if_pos hs, hsub]
        rw [hstep]
        have ih2 := ih text
        simp only [List.get_eq_getElem] at ih2
        rw [ih2]
        constructor
        · exact fun h => Or.inr h
        · intro hor
          rcases hor with h0 | hj
          · exact absurd h0.2 (by simp)
          · exact hj
    · have hstep : ruleStep (text, false) r = (text, false) := by
        unfold ruleStep
        rw [if_neg hs]
      rw [hstep]
      have ih2 := ih text
      simp only [List.get_eq_getElem] at ih2
      rw [ih2]
      constructor
      · exact fun h => Or.inr h
      · intro hor
        rcases hor with h0 | hj
        · exact absurd h0.1 hs
        · exact hj

/-- A rule whose pattern always matches but whose substitution raises
`re.error` (e.g. a compiled pattern with an invalid replacement template such
as a reference to a non-existent group): the source's `try/except` skips it
without setting `matched` (`autoregex.py:517-521`). -/
def invalidReplacementRule : Rule := ⟨fun _ => true, fun _ => none⟩

/-- Counterexample to claim C1 as stated: for the one-rule set whose pattern
matches `"x"` but whose substitution fails, the pattern matches at its point
of the chain, yet the matched flag stays false — the claimed "matched iff
some rule's pattern matched" equivalence fails. -/
theorem C1_counterexample :
    ¬((applyWholeMessage [invalidReplacementRule] "x").2 = true ↔
      ∃ i : Fin (List.length [invalidReplacementRule]),
        (List.get [invalidReplacementRule] i).search
          (applyWholeMessage (List.take i.1 [invalidReplacementRule]) "x").1 = true) := by
  decide

/-- Claim C1, amended: whole-message mode is the leftmost-rule-first
sequential fold over the input (each rule's substitution operating on the
output of the previous rule), and the matched flag is true iff some rule's
pattern matched the intermediate text at its point of the chain AND its
substitution succeeded there (a rule whose substitution raises `re.error` is
skipped without setting the flag). -/
theorem C1_whole_message_fold (rules : List Rule) (text : String) :
    applyWholeMessage rules text = rules.foldl ruleStep (text, false) ∧
    ((applyWholeMessage rules text).2 = true ↔
      ∃ i : Fin rules.length,
        (rules.get i).search (applyWholeMessage (rules.take i.1) text).1 = true ∧
        ((rules.get i).sub (applyWholeMessage (rules.take i.1) text).1).isSome = true) :=
  ⟨rfl, foldl_ruleStep_matched_iff rules text⟩

/-- Every id produced by `_get_int_list` is the value of an all-digit token,
hence non-negative: a negative id can never appear in a parsed list. -/
theorem parse_int_list_nonneg (val : String) (c : Int) (h : c < 0) :
    c ∉ parse_int_list val := by
  intro hmem
  unfold parse_int_list at hmem
  rcases List.mem_map.mp hmem with ⟨x, _, hval⟩
  omega

/-- Claim C10: `_get_int_list` keeps only comma-separated all-digit tokens
(`autoregex.py:335-337`), so a token with a leading minus sign — such as a
negative Telegram group chat id — is silently dropped: it never appears in a
parsed id list, and therefore can never be the chat-list membership that
admits (whitelist) or denies (blacklist) an event in `check_access`. -/
theorem C10_negative_ids_dropped :
    (∀ (val : String) (c : Int), c < 0 → c ∉ parse_int_list val) ∧
    parse_int_list "-100123,45" = [45] ∧
    (∀ (cfg : AccessCfg) (val ct : String) (c u : Int),
      cfg.access_policy = "whitelist" → cfg.whitelist_chats = parse_int_list val →
      c < 0 → check_access cfg ct c u = true → u ∈ cfg.whitelist_users) ∧
    (∀ (cfg : AccessCfg) (val ct : String) (c u : Int),
      cfg.access_policy = "blacklist" → cfg.blacklist_chats = parse_int_list val →
      c < 0 → allowStage cfg ct = true → denyStage cfg ct = true →
      check_access cfg ct c u = false → u ∈ cfg.blacklist_users) := by
  refine ⟨parse_int_list_nonneg, by decide, ?_, ?_⟩
  · intro cfg val ct c u hpol hwc hneg hacc
    have hps : policyStage cfg c u = true := by
      unfold check_access at hacc
      simp only [Bool.and_eq_true] at hacc
      exact hacc.2
    unfold policyStage at hps
    rw [if_pos hpol] at hps
    by_cases hcond : c ∉ cfg.whitelist_chats ∧ u ∉ cfg.whitelist_users
    · rw [if_pos hcond] at hps
      exact absurd hps (by simp)
    · rcases not_and_or.mp hcond with hc | hu
      · rw [hwc] at hc
        exact absurd (not_not.mp hc) (parse_int_list_nonneg val c hneg)
      · exact not_not.mp hu
  · intro cfg val ct c u hpol hbc hneg hallow hdeny hacc
    have hps : policyStage cfg c u = false := by
      unfold check_access at hacc
      rw [hallow, hdeny] at hacc
      simpa using hacc
    unfold policyStage at hps
    have hne : ¬cfg.access_policy = "whitelist" := by rw [hpol]; decide
    rw [if_neg hne, if_pos hpol] at hps
    by_cases hcond : c ∈ cfg.blacklist_chats ∨ u ∈ cfg.blacklist_users
    · rcases hcond with hc | hu
      · rw [hbc] at hc
        exact absurd hc (parse_int_list_nonneg val c hneg)
      · exact hu
    · rw [if_neg hcond] at hps
      exact absurd hps (by simp)

/-- Witness for C10: the negative group chat id `-100123` is dropped by the
parser and so never appears in the parsed whitelist. -/
theorem C10_negative_ids_dropped_witness :
    (-100123 : Int) ∉ parse_int_list "-100123,45" :=
  C10_negative_ids_dropped.1 "-100123,45" (-100123) (by norm_num)

/-- A previously-loaded in-memory configuration (the source defaults). -/
def oldCfgC9 : LoadedConfig :=
  ⟨true, true, true, "sender_or_admin", 2, true, false, [], "off",
   [], [], [], [], [], [], []⟩

/-- A corrupt raw configuration: `send_as_reply` parses, `cooldown_seconds`
does not (`float("abc")` raises `ValueError`), and the `access` section
carries a new whitelist that is never reached. -/
def rawCfgC9 : RawConfig :=
  [("bot", [("send_as_reply", "false"), ("cooldown_seconds", "abc")]),
   ("access", [("whitelist_chats", "42")])]

/-- Counterexample to claim C9 as stated: on this corrupt configuration the
load fails (`cooldown_seconds` is unreadable), yet the in-memory
configuration is NOT retained unchanged in its entirety — `send_as_reply`
has already been overwritten while `whitelist_chats` still holds the old
value even though the file carries a new one: a torn state. -/
theorem C9_counterexample :
    getfloatOr rawCfgC9 "bot" "cooldown_seconds" 2 = none ∧
    load_config oldCfgC9 rawCfgC9 [] ≠ oldCfgC9 ∧
    (load_config oldCfgC9 rawCfgC9 []).send_as_reply = false ∧
    oldCfgC9.send_as_reply = true ∧
    (load_config oldCfgC9 rawCfgC9 []).whitelist_chats = [] ∧
    get_int_list rawCfgC9 "access" "whitelist_chats" = [42] := by
  refine ⟨by decide, ?_, by decide, by decide, by decide, by decide⟩
  intro h
  have := congrArg LoadedConfig.send_as_reply h
  revert this
  decide

/-- Claim C9, amended: a failed load is caught (the pipeline never crashes)
and the fields after the failure point keep their previous values, but the
fields assigned before it take the new values — on a load that fails at
`cooldown_seconds`, the result is exactly the old configuration with the
four earlier `bot` fields updated, and everything from `cooldown_seconds`
on (including all access lists and rules) unchanged; the configuration can
therefore be observed torn rather than "retained unchanged in its
entirety". -/
theorem C9_failed_reload_partial_update (old : LoadedConfig) (raw : RawConfig)
    (subs : List (String × String)) (b1 b2 b3 : Bool)
    (h1 : getbooleanOr raw "bot" "send_as_reply" true = some b1)
    (h2 : getbooleanOr raw "bot" "mention_user" true = some b2)
    (h3 : getbooleanOr raw "bot" "enable_delete_button" true = some b3)
    (hf : getfloatOr raw "bot" "cooldown_seconds" 2 = none) :
    load_config old raw subs =
      { old with
        send_as_reply := b1,
        mention_user := b2,
        enable_delete_button := b3,
        delete_allowed := getStrOr raw "bot" "delete_allowed" "sender_or_admin" } := by
  unfold load_config
  rw [h1, h2, h3, hf]

/-- Witness for C9's amended theorem: on the concrete corrupt configuration
the load stops at `cooldown_seconds`, updating exactly the four earlier
fields. -/
theorem C9_failed_reload_partial_update_witness :
    load_config oldCfgC9 rawCfgC9 [] =
      { oldCfgC9 with
        send_as_reply := false,
        mention_user := true,
        enable_delete_button := true,
        delete_allowed := "sender_or_admin" } := by
  have h := C9_failed_reload_partial_update oldCfgC9 rawCfgC9 [] false true true
    (by decide) (by decide) (by decide) (by decide)
  rw [h]
  decide

/-- The recovery loop appends to `delivered` exactly the overdue rows whose
send succeeded, in order. -/
theorem recover_delivered_aux (now : ℚ) (sendOk : Reminder → Bool)
    (l : List Reminder) (acc : RecoveryResult) :
    (l.foldl (recoverStep now sendOk) acc).delivered =
      acc.delivered ++
        l.filter (fun r => decide (r.remind_time ≤ now) && sendOk r) := by
  induction l generalizing acc with
  | nil => simp
  | cons r t ih =>
    rw [List.foldl_cons, ih]
    by_cases h1 : r.remind_time ≤ now
    · by_cases h2 : sendOk r = true
      · simp [recoverStep, sub_nonpos, h1, h2, List.filter_cons]
      · simp [recoverStep, sub_nonpos, h1, h2, List.filter_cons]
    · simp [recoverStep, sub_nonpos, h1, List.filter_cons]

/-- The recovery loop appends to `rearmed` exactly the future rows, each with
its truncated `int(seconds)` delay. -/
theorem recover_rearmed_aux (now : ℚ) (sendOk : Reminder → Bool)
    (l : List Reminder) (acc : RecoveryResult) :
    (l.foldl (recoverStep now sendOk) acc).rearmed =
      acc.rearmed ++
        (l.filter (fun r => !decide (r.remind_time ≤ now))).map
          (fun r => (r, ⌊r.remind_time - now⌋)) := by
  induction l generalizing acc with
  | nil => simp
  | cons r t ih =>
    rw [List.foldl_cons, ih]
    by_cases h1 : r.remind_time ≤ now
    · by_cases h2 : sendOk r = true
      · simp [recoverStep, sub_nonpos, h1, h2, List.filter_cons]
      · simp [recoverStep, sub_nonpos, h1, h2, List.filter_cons]
    · simp [recoverStep, sub_nonpos, h1, List.filter_cons]

/-- The recovery loop removes from the running store exactly the rows whose
id matches some successfully delivered overdue row. -/
theorem recover_store_aux (now : ℚ) (sendOk : Reminder → Bool)
    (l : List Reminder) (acc : RecoveryResult) :
    (l.foldl (recoverStep now sendOk) acc).store =
      acc.store.filter (fun x =>
        !(l.filter (fun r => decide (r.remind_time ≤ now) && sendOk r)).any
          (fun r => x.id == r.id)) := by
  induction l generalizing acc with
  | nil => simp
  | cons r t ih =>
    rw [List.foldl_cons, ih]
    by_cases h1 : r.remind_time ≤ now
    · by_cases h2 : sendOk r = true
      · have hstep : (recoverStep now sendOk acc r).store =
            acc.store.filter (fun x => decide (x.id ≠ r.id)) := by
          simp [recoverStep, sub_nonpos, h1, h2]
        rw [hstep, List.filter_filter]
        refine List.filter_congr ?_
        intro x _
        simp only [List.filter_cons, h1, h2, decide_True, Bool.and_self, if_true,
          List.any_cons, Bool.not_or]
        by_cases hid : x.id = r.id <;> simp [hid, Bool.and_comm]
      · have hstep : (recoverStep now sendOk acc r).store = acc.store := by
          simp [recoverStep, sub_nonpos, h1, h2]
        rw [hstep]
        refine List.filter_congr ?_
        intro x _
        simp [List.filter_cons, h1, h2]
    · have hstep : (recoverStep now sendOk acc r).store = acc.store := by
        simp [recoverStep, sub_nonpos, h1]
      rw [hstep]
      refine List.filter_congr ?_
      intro x _
      simp [List.filter_cons, h1]

/-- Claim C8: at startup recovery (`autoregex.py:1217-1249`, delivery effect
`autoregex.py:1266-1284`), with distinct row ids: every persisted reminder
due at or before `now` whose send succeeds is delivered exactly once and
removed from the store; one whose send fails stays in the store; every
future reminder is re-armed with a timer of `int(dueAt - now)` seconds (the
source truncates the positive fractional delay) and left in the store until
its timer fires. -/
theorem C8_recovery_reconciliation (now : ℚ) (sendOk : Reminder → Bool)
    (pending : List Reminder) (hnodup : (pending.map Reminder.id).Nodup) :
    (recoverReminders now sendOk pending).delivered =
      pending.filter (fun r => decide (r.remind_time ≤ now) && sendOk r) ∧
    (recoverReminders now sendOk pending).store =
      pending.filter (fun r => !(decide (r.remind_time ≤ now) && sendOk r)) ∧
    (recoverReminders now sendOk pending).rearmed =
      (pending.filter (fun r => !decide (r.remind_time ≤ now))).map
        (fun r => (r, ⌊r.remind_time - now⌋)) ∧
    (∀ r ∈ pending, r.remind_time ≤ now → sendOk r = true →
      (recoverReminders now sendOk pending).delivered.count r = 1) ∧
    (∀ r ∈ pending, r.remind_time ≤ now → sendOk r = false →
      r ∈ (recoverReminders now sendOk pending).store) := by
  have hdel : (recoverReminders now sendOk pending).delivered =
      pending.filter (fun r => decide (r.remind_time ≤ now) && sendOk r) := by
    have h := recover_delivered_aux now sendOk pending ⟨pending, [], []⟩
    simpa [recoverReminders] using h
  have hre : (recoverReminders now sendOk pending).rearmed =
      (pending.filter (fun r => !decide (r.remind_time ≤ now))).map
        (fun r => (r, ⌊r.remind_time - now⌋)) := by
    have h := recover_rearmed_aux now sendOk pending ⟨pending, [], []⟩
    simpa [recoverReminders] using h
  have hstore : (recoverReminders now sendOk pending).store =
      pending.filter (fun r => !(decide (r.remind_time ≤ now) && sendOk r)) := by
    have h := recover_store_aux now sendOk pending ⟨pending, [], []⟩
    rw [recoverReminders, h]
    refine List.filter_congr ?_
    intro x hx
    have key : (pending.filter
        (fun r => decide (r.remind_time ≤ now) && sendOk r)).any
        (fun r => x.id == r.id) = (decide (x.remind_time ≤ now) && sendOk x) := by
      by_cases hp : (decide (x.remind_time ≤ now) && sendOk x) = true
      · rw [hp, List.any_eq_true]
        exact ⟨x, List.mem_filter.mpr ⟨hx, hp⟩, by simp⟩
      · have hp' : (decide (x.remind_time ≤ now) && sendOk x) = false := by
          revert hp
          cases decide (x.remind_time ≤ now) && sendOk x <;> simp
        rw [hp', List.any_eq_false]
        intro r hr
        rcases List.mem_filter.mp hr with ⟨hrmem, hrP⟩
        intro hbeq
        have hxr : x = r :=
          List.inj_on_of_nodup_map hnodup hx hrmem (by simpa using hbeq)
        rw [← hxr] at hrP
        exact absurd hrP hp
    exact congrArg (fun b => !b) key
  have hnd : pending.Nodup := List.Nodup.of_map Reminder.id hnodup
  refine ⟨hdel, hstore, hre, ?_, ?_⟩
  · intro r hr hdue hok
    rw [hdel]
    exact List.count_eq_one_of_mem (List.Nodup.filter _ hnd)
      (List.mem_filter.mpr ⟨hr, by simp [hdue, hok]⟩)
  · intro r hr hdue hok
    rw [hstore]
    exact List.mem_filter.mpr ⟨hr, by simp [hok]⟩

/-- Witness for C8: three reminders — one overdue and deliverable, one
overdue whose send fails, one future — are respectively delivered once,
kept in the store, and re-armed with the truncated remaining delay. -/
theorem C8_recovery_reconciliation_witness :
    ((recoverReminders 100 (fun r => r.id != 2)
        [⟨1, 7, 8, 11, 50, none, none⟩, ⟨2, 7, 8, 12, 60, none, none⟩,
         ⟨3, 7, 8, 13, 160, none, none⟩]).delivered.count
      ⟨1, 7, 8, 11, 50, none, none⟩ = 1) ∧
    (⟨2, 7, 8, 12, 60, none, none⟩ : Reminder) ∈
      (recoverReminders 100 (fun r => r.id != 2)
        [⟨1, 7, 8, 11, 50, none, none⟩, ⟨2, 7, 8, 12, 60, none, none⟩,
         ⟨3, 7, 8, 13, 160, none, none⟩]).store :=
  ⟨(C8_recovery_reconciliation 100 (fun r => r.id != 2)
      [⟨1, 7, 8, 11, 50, none, none⟩, ⟨2, 7, 8, 12, 60, none, none⟩,
       ⟨3, 7, 8, 13, 160, none, none⟩] (by decide)).2.2.2.1
      ⟨1, 7, 8, 11, 50, none, none⟩ (by decide) (by norm_num) (by decide),
   (C8_recovery_reconciliation 100 (fun r => r.id != 2)
      [⟨1, 7, 8, 11, 50, none, none⟩, ⟨2, 7, 8, 12, 60, none, none⟩,
       ⟨3, 7, 8, 13, 160, none, none⟩] (by decide)).2.2.2.2
      ⟨2, 7, 8, 12, 60, none, none⟩ (by decide) (by norm_num) (by decide)⟩

/-- Witness for C3: the zero-token case yields 0, via the theorem applied at
the concrete input `"5x"`. -/
theorem C3_parse_duration_witness : parse_duration "5x" = 0 :=
  (C3_parse_duration "5x").2.1 (by decide)

/-- Witness for C1's amended theorem: a concrete one-rule chain whose pattern
matches and whose substitution succeeds sets the matched flag. -/
theorem C1_whole_message_fold_witness :
    (applyWholeMessage [⟨fun s => s = "ab", fun _ => some "cd"⟩] "ab").2 = true :=
  (C1_whole_message_fold [⟨fun s => s = "ab", fun _ => some "cd"⟩] "ab").2.mpr
    ⟨⟨0, by decide⟩, by decide, by decide⟩
